import Mathlib

/-!
Verification of the conversational-agent runtime: transcript store
(src/memory/memory.py and src/memory/memory_v2.py), tool abstraction
(src/tools/tool.py) and tool-calling orchestrator (src/agent/agent.py),
shallowly embedded as pure Lean functions with explicit state passing.
Python exceptions are modelled with Except; the OpenAI backend and the
JSON decoder are external collaborators and enter as function parameters.
-/

namespace AgentProto

/-! ## Data model -/

/-- A tool-call request proposed by the model: mirrors the OpenAI
tool-call object accessed in agent.py as t.id, t.function.name,
t.function.arguments (serialized string). -/
structure ToolCall where
  id : String
  name : String
  arguments : String
  deriving DecidableEq, Repr

/-- A Python value stored in a message's tool_calls field: at runtime it
is either a list of tool-call objects or a dict; agent.py tests it with
isinstance(x, dict). -/
inductive TCVal where
  | ofList : List ToolCall → TCVal
  | ofDict : List (String × String) → TCVal
  deriving DecidableEq, Repr

/-- isinstance(x, dict) on a tool_calls value. -/
def TCVal.isDict : TCVal → Bool
  | .ofDict _ => true
  | .ofList _ => false

/-- One transcript entry, mirroring the Message TypedDict of
memory.py/memory_v2.py: role and content always present, tool_calls and
tool_call_id present-or-absent (Option none = key absent). -/
structure Message where
  role : String
  content : String
  tool_calls : Option TCVal
  tool_call_id : Option String
  deriving DecidableEq, Repr

/-- ValueError raised by Memory.add_message in both memory versions. -/
inductive MemError where
  | invalidRole (role : String)
  | missingToolCallId
  deriving DecidableEq, Repr

/-! ## Transcript Store, version 1 (src/memory/memory.py) -/

namespace Memory

/-- The fixed role set checked at memory.py line 98. -/
def validRoles : List String := ["user", "system", "assistant", "tool"]

/-- Memory.add_message of memory.py lines 75-114: validates the role,
requires tool_call_id for tool messages, then builds the stored message
(tool_call_id only for role "tool"; tool_calls whenever supplied) and
appends it.  Raising is modelled as Except.error; when role = "tool" the
guard guarantees tool_call_id is some s and str(tool_call_id) = s. -/
def add_message (msgs : List Message) (role content : String)
    (tool_calls : Option TCVal) (tool_call_id : Option String) :
    Except MemError (List Message) :=
  if role ∉ validRoles then
    .error (.invalidRole role)
  else if role = "tool" ∧ tool_call_id = none then
    .error .missingToolCallId
  else
    let message : Message :=
      { role := role, content := content, tool_calls := none, tool_call_id := none }
    let message :=
      if role = "tool" then
        { message with tool_call_id := some (tool_call_id.getD "") }
      else message
    let message :=
      if tool_calls.isSome then { message with tool_calls := tool_calls }
      else message
    .ok (msgs ++ [message])

/-- The messages property / get_messages: a defensive copy, which for an
immutable list is the list itself. -/
def messages (msgs : List Message) : List Message := msgs

/-- Memory.last_message: the last entry, or None when empty. -/
def last_message (msgs : List Message) : Option Message := msgs.getLast?

/-- Memory.reset: clears the log unconditionally. -/
def reset (_ : List Message) : List Message := []

/-- Object-level view of one add_message call: on a raise the Python
object's _messages list is left unchanged. -/
def tryAdd (msgs : List Message) (role content : String)
    (tool_calls : Option TCVal) (tool_call_id : Option String) : List Message :=
  match add_message msgs role content tool_calls tool_call_id with
  | .ok msgs2 => msgs2
  | .error _ => msgs

end Memory

/-! ## Transcript Store, version 2 (src/memory/memory_v2.py) -/

namespace MemoryV2

/-- Memory.add_message of memory_v2.py lines 56-110: no role validation;
tool messages require tool_call_id; tool_calls is stored only on the
non-tool branch. -/
def add_message (msgs : List Message) (role content : String)
    (tool_calls : Option TCVal) (tool_call_id : Option String) :
    Except MemError (List Message) :=
  if role = "tool" ∧ tool_call_id = none then
    .error .missingToolCallId
  else
    let message : Message :=
      { role := role, content := content, tool_calls := none, tool_call_id := none }
    let message :=
      if role = "tool" then
        { message with tool_call_id := some (tool_call_id.getD "") }
      else if tool_calls.isSome then { message with tool_calls := tool_calls }
      else message
    .ok (msgs ++ [message])

/-- Memory.last_message of memory_v2.py. -/
def last_message (msgs : List Message) : Option Message := msgs.getLast?

/-- Memory.reset of memory_v2.py. -/
def reset (_ : List Message) : List Message := []

/-- Object-level view of one add_message call (state unchanged on raise). -/
def tryAdd (msgs : List Message) (role content : String)
    (tool_calls : Option TCVal) (tool_call_id : Option String) : List Message :=
  match add_message msgs role content tool_calls tool_call_id with
  | .ok msgs2 => msgs2
  | .error _ => msgs

end MemoryV2

/-! ## Append requests and their stored forms (for the C5 statement) -/

/-- The arguments of one add_message call. -/
structure Request where
  role : String
  content : String
  tool_calls : Option TCVal
  tool_call_id : Option String
  deriving DecidableEq, Repr

/-- A request the store accepts: role in the fixed set, and a
correlation id present for tool messages. -/
def Request.valid (r : Request) : Prop :=
  r.role ∈ Memory.validRoles ∧ (r.role = "tool" → r.tool_call_id ≠ none)

instance (r : Request) : Decidable r.valid := by
  unfold Request.valid
  infer_instance

/-- The message memory.py stores for a valid request. -/
def Memory.mkStored (r : Request) : Message :=
  { role := r.role, content := r.content,
    tool_calls := r.tool_calls,
    tool_call_id := if r.role = "tool" then some (r.tool_call_id.getD "") else none }

/-- The message memory_v2.py stores for a valid request. -/
def MemoryV2.mkStored (r : Request) : Message :=
  { role := r.role, content := r.content,
    tool_calls := if r.role = "tool" then none else r.tool_calls,
    tool_call_id := if r.role = "tool" then some (r.tool_call_id.getD "") else none }

/-- A sequence of add_message calls on memory.py, left to right. -/
def Memory.addAll (msgs : List Message) (reqs : List Request) :
    Except MemError (List Message) :=
  match reqs with
  | [] => .ok msgs
  | r :: rest =>
    match Memory.add_message msgs r.role r.content r.tool_calls r.tool_call_id with
    | .error e => .error e
    | .ok msgs2 => Memory.addAll msgs2 rest

/-- A sequence of add_message calls on memory_v2.py, left to right. -/
def MemoryV2.addAll (msgs : List Message) (reqs : List Request) :
    Except MemError (List Message) :=
  match reqs with
  | [] => .ok msgs
  | r :: rest =>
    match MemoryV2.add_message msgs r.role r.content r.tool_calls r.tool_call_id with
    | .error e => .error e
    | .ok msgs2 => MemoryV2.addAll msgs2 rest

/-! ## Basic store lemmas -/

theorem Memory.add_message_valid (msgs : List Message) (r : Request)
    (h : r.valid) :
    Memory.add_message msgs r.role r.content r.tool_calls r.tool_call_id =
      .ok (msgs ++ [Memory.mkStored r]) := by
  obtain ⟨hrole, hid⟩ := h
  unfold Memory.add_message Memory.mkStored
  rw [if_neg (by simpa using hrole)]
  by_cases htool : r.role = "tool"
  · rw [if_neg (by simp [htool, hid htool])]
    simp [htool, Option.isSome]
    cases htc : r.tool_calls <;> simp [htc]
  · rw [if_neg (by simp [htool])]
    simp [htool, Option.isSome]
    cases htc : r.tool_calls <;> simp [htc]

theorem MemoryV2.add_message_valid_v2 (msgs : List Message) (r : Request)
    (h : r.valid) :
    MemoryV2.add_message msgs r.role r.content r.tool_calls r.tool_call_id =
      .ok (msgs ++ [MemoryV2.mkStored r]) := by
  obtain ⟨_, hid⟩ := h
  unfold MemoryV2.add_message MemoryV2.mkStored
  by_cases htool : r.role = "tool"
  · rw [if_neg (by simp [htool, hid htool])]
    simp [htool]
  · rw [if_neg (by simp [htool])]
    simp [htool, Option.isSome]
    cases htc : r.tool_calls <;> simp [htc]

theorem Memory.addAll_valid (reqs : List Request) :
    ∀ msgs : List Message, (∀ r ∈ reqs, r.valid) →
      Memory.addAll msgs reqs = .ok (msgs ++ reqs.map Memory.mkStored) := by
  induction reqs with
  | nil => intro msgs _; simp [Memory.addAll]
  | cons r rest ih =>
    intro msgs h
    rw [Memory.addAll, Memory.add_message_valid msgs r (h r (by simp))]
    dsimp only
    rw [ih (msgs ++ [Memory.mkStored r]) (fun x hx => h x (by simp [hx]))]
    simp

theorem MemoryV2.addAll_valid_v2 (reqs : List Request) :
    ∀ msgs : List Message, (∀ r ∈ reqs, r.valid) →
      MemoryV2.addAll msgs reqs = .ok (msgs ++ reqs.map MemoryV2.mkStored) := by
  induction reqs with
  | nil => intro msgs _; simp [MemoryV2.addAll]
  | cons r rest ih =>
    intro msgs h
    rw [MemoryV2.addAll, MemoryV2.add_message_valid_v2 msgs r (h r (by simp))]
    dsimp only
    rw [ih (msgs ++ [MemoryV2.mkStored r]) (fun x hx => h x (by simp [hx]))]
    simp

/-! ## Tool abstraction (src/tools/tool.py) -/

/-- Python exceptions that tools, decoders or the wrapper classes can
raise.  The spec names a ToolExecutionError wrapper; it is included so
that its absence from the code's behaviour can be stated. -/
inductive PyErr where
  | valueError (msg : String)
  | typeError (msg : String)
  | overflowError (msg : String)
  | jsonDecodeError (msg : String)
  | toolExecutionError : PyErr → PyErr
  deriving DecidableEq, Repr

/-- Python str(e) for an exception: its message (for the wrapper, the
wrapped cause's message). -/
def PyErr.str : PyErr → String
  | .valueError m => m
  | .typeError m => m
  | .overflowError m => m
  | .jsonDecodeError m => m
  | .toolExecutionError e => e.str

/-- Recognizes the spec's ToolExecutionError wrapper. -/
def PyErr.isToolExecutionError : PyErr → Bool
  | .toolExecutionError _ => true
  | _ => false

/-- Keyword arguments of a tool invocation: parameter name to value
(values kept as their string rendering). -/
abbrev Args := List (String × String)

/-- The Tool class of tool.py restricted to what the orchestrator uses:
its name (func.__name__), its description (first docstring line) and the
wrapped callable.  The callable may raise, modelled as Except. -/
structure Tool where
  name : String
  description : String
  func : Args → Except PyErr String

/-- Tool.__call__ of tool.py lines 96-108: returns self.func(*args,
**kwargs) directly, with no wrapping of any exception the function
raises. -/
def Tool.call (t : Tool) (args : Args) : Except PyErr String :=
  t.func args

/-- Did an invocation raise the spec's ToolExecutionError wrapper? -/
def raisedToolExecutionError : Except PyErr String → Bool
  | .error e => e.isToolExecutionError
  | .ok _ => false

/-- self.tool_map.get(function_name) where tool_map = {t.name: t for t
in tools}: a dict comprehension keeps the last binding of a duplicated
name. -/
def tool_map_lookup (tools : List Tool) (n : String) : Option Tool :=
  (tools.filter (fun t => t.name == n)).getLast?

/-- json.loads on the serialized arguments string: an external library,
abstracted as a parameter of the orchestrator. -/
abbrev Decoder := String → Except PyErr Args

/-! ## Tool-calling orchestrator (src/agent/agent.py) -/

/-- Exceptions that can escape Agent.invoke.  modelCallError is the
RuntimeError raised at agent.py line 243 wrapping an OpenAIError;
recursionLimitError is the RuntimeError of line 164; jsonDecodeError is
a json.loads failure escaping line 169 uncaught; memError is a
ValueError escaping an add_message call. -/
inductive AgentError where
  | modelCallError (backend : String)
  | recursionLimitError
  | jsonDecodeError (msg : String)
  | memError (e : MemError)
  deriving DecidableEq, Repr

/-- The message object returned by one chat-completion call: optional
content and optional list of tool calls (getattr(msg, "tool_calls",
None) is None or a list). -/
structure ModelResp where
  content : Option String
  tool_calls : Option (List ToolCall)
  deriving DecidableEq, Repr

/-- The model capability: an opaque backend consulted once per step.
It receives the projected transcript; the consultation index (how many
calls were made before) makes arbitrary backend behaviour expressible.
A failure is an opaque backend error (OpenAIError), carried as a
string. -/
abbrev Model := Nat → List Message → Except String ModelResp

/-- Agent state threaded through invoke: the memory transcript, plus
instrumentation recording the projected message list handed to each
model call and how many tool-execution batches completed. -/
structure AgentState where
  memory : List Message
  calls : List (List Message)
  cycles : Nat
  deriving DecidableEq, Repr

/-- The projection of one stored message into the model-call shape
(agent.py lines 109-115 and 187-193): keys with value None are dropped
(structurally the Option is kept), and a tool_calls value that is not a
dict is deleted. -/
def projectMsg (m : Message) : Message :=
  { m with
    tool_calls :=
      match m.tool_calls with
      | some tc => if tc.isDict then some tc else none
      | none => none }

/-- The full transcript projection handed to the model call. -/
def projectAll (mem : List Message) : List Message := mem.map projectMsg

/-- str(ai_message.content) if ai_message.content is not None else ""
(agent.py lines 125 and 206). -/
def contentOrEmpty (c : Option String) : String :=
  match c with
  | some s => s
  | none => ""

/-- The for-loop of Agent._call_tools (agent.py lines 166-184): for each
tool call, json.loads its arguments (NOT inside any try block: a decode
failure raises out of the loop), look the tool up, append a not-found
tool message for an unknown name, otherwise invoke the tool catching
every Exception into an error string, and append the stringified result
as a tool message. -/
def runBatch (dec : Decoder) (tools : List Tool) (ts : List ToolCall)
    (mem : List Message) : List Message × Option AgentError :=
  match ts with
  | [] => (mem, none)
  | t :: rest =>
    match dec t.arguments with
    | .error e => (mem, some (.jsonDecodeError e.str))
    | .ok args =>
      match tool_map_lookup tools t.name with
      | none =>
        match Memory.add_message mem "tool"
            ("Tool \x27" ++ t.name ++ "\x27 not found.") none (some t.id) with
        | .error me => (mem, some (.memError me))
        | .ok mem2 => runBatch dec tools rest mem2
      | some tool =>
        let result :=
          match tool.call args with
          | .ok v => v
          | .error e => "Erro ao executar a ferramenta: " ++ e.str
        match Memory.add_message mem "tool" result none (some t.id) with
        | .error me => (mem, some (.memError me))
        | .ok mem2 => runBatch dec tools rest mem2

/-- Agent._call_tools (agent.py lines 141-211), with a structural fuel
argument standing for the well-founded measure maxDepth + 2 - depth; the
fuel-zero branch is unreachable at every call site because the depth
guard fires first.  Raising is modelled by returning some error together
with the state at the raise. -/
def callToolsFuel (dec : Decoder) (model : Model) (tools : List Tool) :
    Nat → List ToolCall → Nat → Nat → AgentState →
    AgentState × Option AgentError
  | 0, _, _, _, st => (st, some .recursionLimitError)
  | fuel + 1, ts, depth, maxDepth, st =>
    if depth > maxDepth then (st, some .recursionLimitError)
    else
      match runBatch dec tools ts st.memory with
      | (mem1, some e) => ({ st with memory := mem1 }, some e)
      | (mem1, none) =>
        let st1 : AgentState :=
          { memory := mem1, calls := st.calls, cycles := st.cycles + 1 }
        let projected := projectAll st1.memory
        let st2 : AgentState := { st1 with calls := st1.calls ++ [projected] }
        match model st1.calls.length projected with
        | .error e => (st2, some (.modelCallError e))
        | .ok r =>
          -- line 203: the tool_calls value is None or a list, never a
          -- dict, so tc = tool_calls if isinstance(tool_calls, dict)
          -- else None is always None
          match Memory.add_message st2.memory "assistant"
              (contentOrEmpty r.content) none none with
          | .error me => (st2, some (.memError me))
          | .ok mem2 =>
            let st3 : AgentState := { st2 with memory := mem2 }
            match r.tool_calls with
            | some (t :: ts2) =>
              callToolsFuel dec model tools fuel (t :: ts2) (depth + 1) maxDepth st3
            | _ => (st3, none)

/-- The max_depth default of Agent._call_tools. -/
def maxDepthDefault : Nat := 5

/-- Lines 132-139 of invoke: extract the content of the last stored
message, or "" for an empty transcript. -/
def finalAnswer (mem : List Message) : String :=
  match Memory.last_message mem with
  | some m => m.content
  | none => ""

/-- Lines 129-130 of invoke: if tool_calls: self._call_tools(tool_calls),
started at recursion_depth 0 with the default max_depth; without tool
calls the state is untouched and nothing is raised. -/
def runToolPhase (dec : Decoder) (model : Model) (tools : List Tool)
    (tcs : Option (List ToolCall)) (st : AgentState) :
    AgentState × Option AgentError :=
  match tcs with
  | some (t :: ts) =>
    callToolsFuel dec model tools (maxDepthDefault + 2) (t :: ts)
      0 maxDepthDefault st
  | _ => (st, none)

/-- Lines 132-139 of invoke: a raise inside the tool phase escapes;
otherwise the last stored message's content is returned. -/
def finishInvoke (p : AgentState × Option AgentError) :
    AgentState × Except AgentError String :=
  match p with
  | (st4, some e) => (st4, .error e)
  | (st4, none) => (st4, .ok (finalAnswer st4.memory))

/-- Agent.invoke (agent.py lines 89-139): append the user message,
project the transcript, consult the model, append the assistant message
carrying the raw tool_calls value (a list, stored as such), run
_call_tools when tool calls are present, and return the last message's
content. -/
def invoke (dec : Decoder) (model : Model) (tools : List Tool)
    (st : AgentState) (user_message : String) :
    AgentState × Except AgentError String :=
  match Memory.add_message st.memory "user" user_message none none with
  | .error me => (st, .error (.memError me))
  | .ok mem1 =>
    let st1 : AgentState := { st with memory := mem1 }
    let projected := projectAll st1.memory
    let st2 : AgentState := { st1 with calls := st1.calls ++ [projected] }
    match model st1.calls.length projected with
    | .error e => (st2, .error (.modelCallError e))
    | .ok r =>
      match Memory.add_message st2.memory "assistant" (contentOrEmpty r.content)
          (r.tool_calls.map TCVal.ofList) none with
      | .error me => (st2, .error (.memError me))
      | .ok mem2 =>
        let st3 : AgentState := { st2 with memory := mem2 }
        finishInvoke (runToolPhase dec model tools r.tool_calls st3)

/-- The system prompt built in Agent.__init__ (agent.py lines 75-79). -/
def system_content (role instructions : String) : String :=
  "You\x27re an AI Agent, your role is " ++ role ++
    ", and you need to " ++ instructions

/-- Agent.__init__ (agent.py lines 43-87): a fresh Memory seeded with
one system message. -/
def initAgent (role instructions : String) : Except MemError AgentState :=
  match Memory.add_message [] "system" (system_content role instructions)
      none none with
  | .error me => .error me
  | .ok mem => .ok { memory := mem, calls := [], cycles := 0 }

/-! ## Decidable equality for Except results -/

instance {ε α : Type} [DecidableEq ε] [DecidableEq α] : DecidableEq (Except ε α) :=
  fun x y =>
    match x, y with
    | .ok u, .ok v =>
      if h : u = v then .isTrue (by rw [h]) else .isFalse (by simp [h])
    | .error u, .error v =>
      if h : u = v then .isTrue (by rw [h]) else .isFalse (by simp [h])
    | .ok _, .error _ => .isFalse (by simp)
    | .error _, .ok _ => .isFalse (by simp)

/-! ## Specialized append lemmas for the roles the orchestrator uses -/

theorem Memory.add_message_user (mem : List Message) (c : String) :
    Memory.add_message mem "user" c none none =
      .ok (mem ++ [{ role := "user", content := c,
                     tool_calls := none, tool_call_id := none }]) := by
  simp [Memory.add_message, Memory.validRoles]

theorem Memory.add_message_system (mem : List Message) (c : String) :
    Memory.add_message mem "system" c none none =
      .ok (mem ++ [{ role := "system", content := c,
                     tool_calls := none, tool_call_id := none }]) := by
  simp [Memory.add_message, Memory.validRoles]

theorem Memory.add_message_assistant (mem : List Message) (c : String)
    (tc : Option TCVal) :
    Memory.add_message mem "assistant" c tc none =
      .ok (mem ++ [{ role := "assistant", content := c,
                     tool_calls := tc, tool_call_id := none }]) := by
  cases tc <;> simp [Memory.add_message, Memory.validRoles]

theorem Memory.add_message_tool (mem : List Message) (c i : String) :
    Memory.add_message mem "tool" c none (some i) =
      .ok (mem ++ [{ role := "tool", content := c,
                     tool_calls := none, tool_call_id := some i }]) := by
  simp [Memory.add_message, Memory.validRoles]

/-! ## Claim C5 -/

/-- Claim C5: for every sequence of valid append calls on the Transcript
Store (either version), all() returns the messages in exactly insertion
order, last() is the most recently appended message, and reset()
followed by last() yields the absence marker, not an error. -/
theorem store_order_last_reset (reqs : List Request)
    (hv : ∀ r ∈ reqs, r.valid) :
    Memory.addAll [] reqs = .ok (reqs.map Memory.mkStored) ∧
    Memory.last_message (reqs.map Memory.mkStored) =
      reqs.getLast?.map Memory.mkStored ∧
    Memory.last_message (Memory.reset (reqs.map Memory.mkStored)) = none ∧
    MemoryV2.addAll [] reqs = .ok (reqs.map MemoryV2.mkStored) ∧
    MemoryV2.last_message (reqs.map MemoryV2.mkStored) =
      reqs.getLast?.map MemoryV2.mkStored ∧
    MemoryV2.last_message (MemoryV2.reset (reqs.map MemoryV2.mkStored)) = none := by
  refine ⟨by simpa using Memory.addAll_valid reqs [] hv, ?_, rfl,
    by simpa using MemoryV2.addAll_valid_v2 reqs [] hv, ?_, rfl⟩
  · simp [Memory.last_message, List.getLast?_map]
  · simp [MemoryV2.last_message, List.getLast?_map]

/-- Witness for C5 at a concrete three-message conversation. -/
theorem store_order_last_reset_witness :
    (∀ r ∈ [Request.mk "system" "be helpful" none none,
            Request.mk "user" "sqrt 16?" none none,
            Request.mk "tool" "4.0" none (some "call_123")], r.valid) ∧
    Memory.addAll [] [Request.mk "system" "be helpful" none none,
            Request.mk "user" "sqrt 16?" none none,
            Request.mk "tool" "4.0" none (some "call_123")] =
      .ok ([Request.mk "system" "be helpful" none none,
            Request.mk "user" "sqrt 16?" none none,
            Request.mk "tool" "4.0" none (some "call_123")].map Memory.mkStored) ∧
    Memory.last_message ([Request.mk "system" "be helpful" none none,
            Request.mk "user" "sqrt 16?" none none,
            Request.mk "tool" "4.0" none (some "call_123")].map Memory.mkStored) =
      [Request.mk "system" "be helpful" none none,
            Request.mk "user" "sqrt 16?" none none,
            Request.mk "tool" "4.0" none (some "call_123")].getLast?.map Memory.mkStored := by
  have hv : ∀ r ∈ [Request.mk "system" "be helpful" none none,
            Request.mk "user" "sqrt 16?" none none,
            Request.mk "tool" "4.0" none (some "call_123")], r.valid := by
    decide
  have h := store_order_last_reset _ hv
  exact ⟨hv, h.1, h.2.1⟩

/-! ## Claim C6 -/

/-- Claim C6: appending a tool-role message without a tool_call_id
fails (with the ValueError of memory.py line 105 / memory_v2.py line
96) and never mutates the store: the object-level transcript is the
same before and after the failed call, in both store versions. -/
theorem tool_append_without_id_fails (msgs : List Message) (content : String)
    (tc : Option TCVal) :
    Memory.add_message msgs "tool" content tc none = .error .missingToolCallId ∧
    Memory.tryAdd msgs "tool" content tc none = msgs ∧
    MemoryV2.add_message msgs "tool" content tc none = .error .missingToolCallId ∧
    MemoryV2.tryAdd msgs "tool" content tc none = msgs := by
  have h1 : Memory.add_message msgs "tool" content tc none =
      .error .missingToolCallId := by
    simp [Memory.add_message, Memory.validRoles]
  have h2 : MemoryV2.add_message msgs "tool" content tc none =
      .error .missingToolCallId := by
    simp [MemoryV2.add_message]
  exact ⟨h1, by simp [Memory.tryAdd, h1], h2, by simp [MemoryV2.tryAdd, h2]⟩

/-! ## Claim C7 -/

/-- Counterexample to C7: memory_v2.py performs no role validation, so
appending with the out-of-set role "bogus" succeeds and mutates the
store instead of failing with InvalidRoleError. -/
theorem invalid_role_accepted_by_v2 :
    MemoryV2.add_message [] "bogus" "hi" none none =
      .ok [{ role := "bogus", content := "hi",
             tool_calls := none, tool_call_id := none }] := by
  decide

/-- Claim C7 as amended: in memory.py every append whose role is
outside {system, user, assistant, tool} fails with the InvalidRoleError
(ValueError of line 100) and leaves the transcript unchanged;
memory_v2.py does not validate roles. -/
theorem invalid_role_rejected_v1 (msgs : List Message) (role content : String)
    (tc : Option TCVal) (tcid : Option String)
    (h : role ∉ Memory.validRoles) :
    Memory.add_message msgs role content tc tcid = .error (.invalidRole role) ∧
    Memory.tryAdd msgs role content tc tcid = msgs := by
  have h1 : Memory.add_message msgs role content tc tcid =
      .error (.invalidRole role) := by
    simp [Memory.add_message, h]
  exact ⟨h1, by simp [Memory.tryAdd, h1]⟩

/-- Witness for the amended C7 at the concrete role "bogus". -/
theorem invalid_role_rejected_v1_witness :
    Memory.add_message [] "bogus" "hi" none none =
      .error (.invalidRole "bogus") ∧
    Memory.tryAdd [] "bogus" "hi" none none = [] :=
  invalid_role_rejected_v1 [] "bogus" "hi" none none (by decide)

/-! ## Claim C9 -/

/-- A tool whose wrapped function always raises a ValueError. -/
def boomTool : Tool :=
  { name := "boom", description := "Always raises.",
    func := fun _ => .error (.valueError "boom failed") }

/-- Counterexample to C9: Tool.__call__ (tool.py line 108) returns
self.func(*args, **kwargs) with no wrapping, so the underlying
function's ValueError escapes raw, not as a ToolExecutionError
carrying the cause. -/
theorem tool_call_propagates_raw_error :
    Tool.call boomTool [("x", "1")] = .error (.valueError "boom failed") ∧
    raisedToolExecutionError (Tool.call boomTool [("x", "1")]) = false :=
  ⟨rfl, rfl⟩

/-- Claim C9 as amended: invoking the tool calls the wrapped function
with the keyword-style arguments and lets any failure escape unwrapped;
it is the orchestrator's except-clause (agent.py lines 180-181) that
catches the raw exception and appends a tool message carrying its
human-readable rendering, correlated by the call's id. -/
theorem tool_failure_raw_then_caught
    (dec : Decoder) (tools : List Tool) (t : Tool) (tc : ToolCall)
    (rest : List ToolCall) (mem : List Message) (args : Args) (e : PyErr)
    (hdec : dec tc.arguments = .ok args)
    (hlk : tool_map_lookup tools tc.name = some t)
    (hf : t.func args = .error e) :
    Tool.call t args = .error e ∧
    runBatch dec tools (tc :: rest) mem =
      runBatch dec tools rest
        (mem ++ [{ role := "tool",
                   content := "Erro ao executar a ferramenta: " ++ e.str,
                   tool_calls := none, tool_call_id := some tc.id }]) := by
  constructor
  · simp [Tool.call, hf]
  · simp [runBatch, hdec, hlk, Tool.call, hf, Memory.add_message_tool]

/-- Witness for the amended C9: the raising boomTool inside a concrete
one-call batch. -/
theorem tool_failure_raw_then_caught_witness :
    Tool.call boomTool [] = .error (.valueError "boom failed") ∧
    runBatch (fun _ => .ok []) [boomTool] [ToolCall.mk "c1" "boom" "\x7b\x7d"] [] =
      runBatch (fun _ => .ok []) [boomTool] []
        ([] ++ [{ role := "tool",
                  content := "Erro ao executar a ferramenta: " ++
                    PyErr.str (.valueError "boom failed"),
                  tool_calls := none, tool_call_id := some "c1" }]) :=
  tool_failure_raw_then_caught (fun _ => .ok []) [boomTool] boomTool
    (ToolCall.mk "c1" "boom" "\x7b\x7d") [] [] [] (.valueError "boom failed")
    rfl rfl rfl

/-! ## Characterizing one tool-resolution batch -/

/-- The content the orchestrator appends for one tool call whose
arguments decode: the not-found text for an unknown name, the raw tool
result on success, the error rendering when the callable raises. -/
def toolResultContent (dec : Decoder) (tools : List Tool) (t : ToolCall) : String :=
  match tool_map_lookup tools t.name with
  | none => "Tool \x27" ++ t.name ++ "\x27 not found."
  | some tool =>
    match dec t.arguments with
    | .ok args =>
      match tool.call args with
      | .ok v => v
      | .error e => "Erro ao executar a ferramenta: " ++ e.str
    | .error _ => ""

/-- The tool message the orchestrator appends for one tool call whose
arguments decode. -/
def expectedToolMessage (dec : Decoder) (tools : List Tool) (t : ToolCall) :
    Message :=
  { role := "tool", content := toolResultContent dec tools t,
    tool_calls := none, tool_call_id := some t.id }

/-- When every call's arguments decode, the batch never raises and
appends exactly one tool message per call, in arrival order. -/
theorem runBatch_ok (dec : Decoder) (tools : List Tool) :
    ∀ ts mem, (∀ t ∈ ts, (dec t.arguments).isOk) →
      runBatch dec tools ts mem =
        (mem ++ ts.map (expectedToolMessage dec tools), none) := by
  intro ts
  induction ts with
  | nil => intro mem _; simp [runBatch]
  | cons t rest ih =>
    intro mem h
    have ht := h t (by simp)
    cases hdec : dec t.arguments with
    | error e => rw [hdec] at ht; simp [Except.isOk, Except.toBool] at ht
    | ok args =>
      cases hlk : tool_map_lookup tools t.name with
      | none =>
        rw [runBatch, hdec]
        dsimp only
        rw [hlk]
        dsimp only
        rw [Memory.add_message_tool]
        dsimp only
        rw [ih _ (fun x hx => h x (by simp [hx]))]
        simp [expectedToolMessage, toolResultContent, hlk]
      | some tool =>
        rw [runBatch, hdec]
        dsimp only
        rw [hlk]
        dsimp only
        rw [Memory.add_message_tool]
        dsimp only
        rw [ih _ (fun x hx => h x (by simp [hx]))]
        simp [expectedToolMessage, toolResultContent, hlk, hdec]

/-- A decode failure at one call raises out of the loop: the calls
before it have produced their tool messages, the failing call and all
later ones produce none. -/
theorem runBatch_decode_fail (dec : Decoder) (tools : List Tool)
    (t : ToolCall) (e : PyErr) (hdec : dec t.arguments = .error e) :
    ∀ ts1 ts2 mem, (∀ x ∈ ts1, (dec x.arguments).isOk) →
      runBatch dec tools (ts1 ++ t :: ts2) mem =
        (mem ++ ts1.map (expectedToolMessage dec tools),
         some (.jsonDecodeError e.str)) := by
  intro ts1
  induction ts1 with
  | nil =>
    intro ts2 mem _
    rw [List.nil_append, runBatch, hdec]
    simp
  | cons x rest ih =>
    intro ts2 mem h
    have hx := h x (by simp)
    cases hdx : dec x.arguments with
    | error f => rw [hdx] at hx; simp [Except.isOk, Except.toBool] at hx
    | ok args =>
      cases hlk : tool_map_lookup tools x.name with
      | none =>
        rw [List.cons_append, runBatch, hdx]
        dsimp only
        rw [hlk]
        dsimp only
        rw [Memory.add_message_tool]
        dsimp only
        rw [ih ts2 _ (fun y hy => h y (by simp [hy]))]
        simp [expectedToolMessage, toolResultContent, hlk]
      | some tool =>
        rw [List.cons_append, runBatch, hdx]
        dsimp only
        rw [hlk]
        dsimp only
        rw [Memory.add_message_tool]
        dsimp only
        rw [ih ts2 _ (fun y hy => h y (by simp [hy]))]
        simp [expectedToolMessage, toolResultContent, hlk, hdx]

/-- Whatever happens inside a batch, the memory only grows, and every
appended message is a tool message without a tool_calls field. -/
theorem runBatch_extends (dec : Decoder) (tools : List Tool) :
    ∀ ts mem, ∃ extra,
      (runBatch dec tools ts mem).1 = mem ++ extra ∧
      ∀ m ∈ extra, m.role = "tool" ∧ m.tool_calls = none := by
  intro ts
  induction ts with
  | nil => intro mem; exact ⟨[], by simp [runBatch], by simp⟩
  | cons t rest ih =>
    intro mem
    cases hdec : dec t.arguments with
    | error e =>
      refine ⟨[], ?_, by simp⟩
      rw [runBatch, hdec]
      simp
    | ok args =>
      cases hlk : tool_map_lookup tools t.name with
      | none =>
        obtain ⟨extra, h1, h2⟩ := ih
          (mem ++ [{ role := "tool",
                     content := "Tool \x27" ++ t.name ++ "\x27 not found.",
                     tool_calls := none, tool_call_id := some t.id }])
        refine ⟨{ role := "tool",
                  content := "Tool \x27" ++ t.name ++ "\x27 not found.",
                  tool_calls := none, tool_call_id := some t.id } :: extra, ?_, ?_⟩
        · rw [runBatch, hdec]
          dsimp only
          rw [hlk]
          dsimp only
          rw [Memory.add_message_tool]
          dsimp only
          rw [h1]
          simp
        · intro m hm
          rcases List.mem_cons.mp hm with h | h
          · subst h; exact ⟨rfl, rfl⟩
          · exact h2 m h
      | some tool =>
        obtain ⟨extra, h1, h2⟩ := ih
          (mem ++ [{ role := "tool",
                     content := match tool.call args with
                       | .ok v => v
                       | .error e => "Erro ao executar a ferramenta: " ++ e.str,
                     tool_calls := none, tool_call_id := some t.id }])
        refine ⟨{ role := "tool",
                  content := match tool.call args with
                    | .ok v => v
                    | .error e => "Erro ao executar a ferramenta: " ++ e.str,
                  tool_calls := none, tool_call_id := some t.id } :: extra, ?_, ?_⟩
        · rw [runBatch, hdec]
          dsimp only
          rw [hlk]
          dsimp only
          rw [Memory.add_message_tool]
          dsimp only
          rw [h1]
          simp
        · intro m hm
          rcases List.mem_cons.mp hm with h | h
          · subst h; exact ⟨rfl, rfl⟩
          · exact h2 m h

/-! ## Claim C8 -/

/-- Counterexample to C8: memory.py stores a supplied tool_calls value
for any role, so a user-role append carrying a tool_calls argument
stores it on the user message. -/
theorem tool_calls_stored_on_user_message :
    Memory.add_message [] "user" "hi" (some (.ofDict [("name", "calculator")])) none =
      .ok [{ role := "user", content := "hi",
             tool_calls := some (.ofDict [("name", "calculator")]),
             tool_call_id := none }] := by
  decide

/-- Every message of the transcript that is not an assistant message
carries no tool_calls field. -/
def toolCallsOnlyAssistant (mem : List Message) : Prop :=
  ∀ m ∈ mem, m.role ≠ "assistant" → m.tool_calls = none

theorem toolCallsOnlyAssistant_append (mem extra : List Message)
    (h1 : toolCallsOnlyAssistant mem)
    (h2 : ∀ m ∈ extra, m.role ≠ "assistant" → m.tool_calls = none) :
    toolCallsOnlyAssistant (mem ++ extra) := by
  intro m hm
  rcases List.mem_append.mp hm with h | h
  exacts [h1 m h, h2 m h]

theorem callToolsFuel_tc_only_assistant (dec : Decoder) (model : Model)
    (tools : List Tool) :
    ∀ fuel ts depth maxDepth st, toolCallsOnlyAssistant st.memory →
      toolCallsOnlyAssistant
        (callToolsFuel dec model tools fuel ts depth maxDepth st).1.memory := by
  intro fuel
  induction fuel with
  | zero => intro ts depth maxDepth st h; simpa [callToolsFuel] using h
  | succ fuel ih =>
    intro ts depth maxDepth st h
    rw [callToolsFuel]
    by_cases hgt : depth > maxDepth
    · simpa [hgt] using h
    · rw [if_neg hgt]
      obtain ⟨extra, he, hr⟩ := runBatch_extends dec tools ts st.memory
      have hmem1 : toolCallsOnlyAssistant (runBatch dec tools ts st.memory).1 := by
        rw [he]
        exact toolCallsOnlyAssistant_append _ _ h
          (fun m hm _ => ((hr m hm).2))
      cases hrb : runBatch dec tools ts st.memory with
      | mk mem1 err =>
        rw [hrb] at hmem1
        cases err with
        | some e => exact hmem1
        | none =>
          dsimp only
          cases hm : model st.calls.length (projectAll mem1) with
          | error e => exact hmem1
          | ok r =>
            dsimp only
            rw [Memory.add_message_assistant]
            dsimp only
            have hmem2 : toolCallsOnlyAssistant
                (mem1 ++ [{ role := "assistant",
                            content := contentOrEmpty r.content,
                            tool_calls := none, tool_call_id := none }]) := by
              refine toolCallsOnlyAssistant_append _ _ hmem1 ?_
              intro m hm2 hrole
              simp at hm2
              subst hm2
              rfl
            cases r.tool_calls with
            | none => exact hmem2
            | some l =>
              cases l with
              | nil => exact hmem2
              | cons a as => exact ih _ _ _ _ hmem2

/-- The raise-or-return dispatch of invoke leaves the agent state of
the tool phase untouched. -/
theorem finishInvoke_fst (p : AgentState × Option AgentError) :
    (finishInvoke p).1 = p.1 := by
  rcases p with ⟨s, e⟩
  cases e <;> rfl

theorem runToolPhase_tc_only_assistant (dec : Decoder) (model : Model)
    (tools : List Tool) (tcs : Option (List ToolCall)) (st : AgentState)
    (h : toolCallsOnlyAssistant st.memory) :
    toolCallsOnlyAssistant (runToolPhase dec model tools tcs st).1.memory := by
  cases tcs with
  | none => exact h
  | some l =>
    cases l with
    | nil => exact h
    | cons a as =>
      exact callToolsFuel_tc_only_assistant dec model tools _ _ _ _ _ h

/-- Claim C8 as amended: the store itself attaches a supplied
tool_calls value to messages of any role, but the orchestrator only
ever supplies one when appending an assistant message, so every
transcript the Agent produces carries tool_calls only on assistant
messages: the construction-time transcript satisfies the invariant and
every invoke call preserves it. -/
theorem tool_calls_only_on_assistant :
    (∀ role instr st0, initAgent role instr = .ok st0 →
      toolCallsOnlyAssistant st0.memory) ∧
    (∀ dec model tools st u, toolCallsOnlyAssistant st.memory →
      toolCallsOnlyAssistant (invoke dec model tools st u).1.memory) := by
  constructor
  · intro role instr st0 h0
    rw [initAgent, Memory.add_message_system] at h0
    dsimp only at h0
    cases h0
    intro m hm
    simp at hm
    subst hm
    intro _
    rfl
  · intro dec model tools st u h
    rw [invoke, Memory.add_message_user]
    dsimp only
    have h1 : toolCallsOnlyAssistant
        (st.memory ++ [{ role := "user", content := u,
                         tool_calls := none, tool_call_id := none }]) := by
      refine toolCallsOnlyAssistant_append _ _ h ?_
      intro m hm _
      simp at hm
      subst hm
      rfl
    cases hm : model st.calls.length
        (projectAll (st.memory ++ [{ role := "user", content := u,
                                     tool_calls := none, tool_call_id := none }])) with
    | error e => exact h1
    | ok r =>
      dsimp only
      rw [Memory.add_message_assistant]
      dsimp only
      rw [finishInvoke_fst]
      refine runToolPhase_tc_only_assistant dec model tools r.tool_calls _ ?_
      refine toolCallsOnlyAssistant_append _ _ h1 ?_
      intro m hm2 hrole
      simp at hm2
      subst hm2
      exact absurd rfl hrole

/-- Witness for the amended C8: a concrete constructed agent and a
concrete invoke both satisfy the invariant. -/
theorem tool_calls_only_on_assistant_witness :
    toolCallsOnlyAssistant
      (invoke (fun _ => .ok []) (fun _ _ => .error "down") []
        { memory := [], calls := [], cycles := 0 } "hi").1.memory :=
  tool_calls_only_on_assistant.2 (fun _ => .ok []) (fun _ _ => .error "down") []
    { memory := [], calls := [], cycles := 0 } "hi" (by simp [toolCallsOnlyAssistant])

/-! ## Claim C1 -/

theorem finishInvoke_error (s : AgentState) (e : AgentError) :
    finishInvoke (s, some e) = (s, .error e) := rfl

theorem finishInvoke_ok (s : AgentState) :
    finishInvoke (s, none) = (s, .ok (finalAnswer s.memory)) := rfl

/-- Against a model that proposes at least one tool call at every
consultation (and a decoder that accepts every argument string),
_call_tools started at any depth within budget ends in the recursion
limit error, after completing exactly maxDepth + 1 - depth further
tool-execution cycles. -/
theorem callToolsFuel_limit (dec : Decoder) (model : Model) (tools : List Tool)
    (hdec : ∀ s, (dec s).isOk)
    (hmodel : ∀ n msgs, ∃ r l, model n msgs = .ok r ∧
      r.tool_calls = some l ∧ l ≠ []) :
    ∀ fuel depth maxDepth st ts, depth ≤ maxDepth + 1 →
      fuel + depth = maxDepth + 2 →
      ∃ st4, callToolsFuel dec model tools fuel ts depth maxDepth st =
          (st4, some .recursionLimitError) ∧
        st4.cycles = st.cycles + (maxDepth + 1 - depth) := by
  intro fuel
  induction fuel with
  | zero =>
    intro depth maxDepth st ts hd hf
    omega
  | succ fuel ih =>
    intro depth maxDepth st ts hd hf
    rw [callToolsFuel]
    by_cases hgt : depth > maxDepth
    · rw [if_pos hgt]
      exact ⟨st, rfl, by omega⟩
    · rw [if_neg hgt]
      rw [runBatch_ok dec tools ts st.memory (fun t _ => hdec t.arguments)]
      dsimp only
      obtain ⟨r, l, hm, htc, hlne⟩ := hmodel st.calls.length
        (projectAll (st.memory ++ ts.map (expectedToolMessage dec tools)))
      rw [hm]
      dsimp only
      rw [Memory.add_message_assistant]
      dsimp only
      rw [htc]
      cases l with
      | nil => exact absurd rfl hlne
      | cons a as =>
        dsimp only
        obtain ⟨st4, h4, hc⟩ :=
          ih (depth + 1) maxDepth _ (a :: as) (by omega) (by omega)
        rw [h4]
        refine ⟨st4, rfl, ?_⟩
        dsimp only at hc
        omega

/-- Claim C1: if the model proposes at least one tool call at every
consultation, invoke fails with the recursion limit error (the
RuntimeError of agent.py line 164) after exactly max_depth + 1 = 6
completed tool-call cycles with the default maximum of 5 — never
earlier, never later; invoke is a total function, so it never loops
forever. -/
theorem invoke_recursion_limit (dec : Decoder) (model : Model)
    (tools : List Tool) (st : AgentState) (u : String)
    (hdec : ∀ s, (dec s).isOk)
    (hmodel : ∀ n msgs, ∃ r l, model n msgs = .ok r ∧
      r.tool_calls = some l ∧ l ≠ []) :
    ∃ st4, invoke dec model tools st u = (st4, .error .recursionLimitError) ∧
      st4.cycles = st.cycles + (maxDepthDefault + 1) := by
  rw [invoke, Memory.add_message_user]
  dsimp only
  obtain ⟨r, l, hm, htc, hlne⟩ := hmodel st.calls.length
    (projectAll (st.memory ++ [{ role := "user", content := u,
                                 tool_calls := none, tool_call_id := none }]))
  rw [hm]
  dsimp only
  rw [Memory.add_message_assistant]
  dsimp only
  rw [htc]
  cases l with
  | nil => exact absurd rfl hlne
  | cons a as =>
    rw [runToolPhase]
    obtain ⟨st4, h4, hc⟩ := callToolsFuel_limit dec model tools hdec hmodel
      (maxDepthDefault + 2) 0 maxDepthDefault _ (a :: as)
      (by omega) (by omega)
    rw [h4, finishInvoke_error]
    refine ⟨st4, rfl, ?_⟩
    dsimp only at hc
    omega

/-- A decoder accepting every argument string, for the witnesses. -/
def decAcceptAll : Decoder := fun _ => .ok []

/-- A model that always proposes the same single tool call. -/
def modelAlwaysCalls : Model := fun _ _ =>
  .ok { content := some "calling", tool_calls := some [⟨"c1", "power", "\x7b\x7d"⟩] }

/-- Witness for C1 at a concrete agent state and model. -/
theorem invoke_recursion_limit_witness :
    ∃ st4, invoke decAcceptAll modelAlwaysCalls []
        { memory := [], calls := [], cycles := 0 } "hi" =
        (st4, .error .recursionLimitError) ∧
      st4.cycles = 0 + (maxDepthDefault + 1) :=
  invoke_recursion_limit decAcceptAll modelAlwaysCalls []
    { memory := [], calls := [], cycles := 0 } "hi"
    (fun _ => rfl)
    (fun _ _ => ⟨{ content := some "calling",
                   tool_calls := some [⟨"c1", "power", "\x7b\x7d"⟩] },
      [⟨"c1", "power", "\x7b\x7d"⟩], rfl, rfl, by simp⟩)

/-! ## Claim C2 -/

theorem runToolPhase_some_ne_nil (dec : Decoder) (model : Model)
    (tools : List Tool) (ts : List ToolCall) (st : AgentState) (h : ts ≠ []) :
    runToolPhase dec model tools (some ts) st =
      callToolsFuel dec model tools (maxDepthDefault + 2) ts
        0 maxDepthDefault st := by
  cases ts with
  | nil => exact absurd rfl h
  | cons a as => rfl

theorem finalAnswer_concat (xs : List Message) (m : Message) :
    finalAnswer (xs ++ [m]) = m.content := by
  simp [finalAnswer, Memory.last_message, List.getLast?_concat]

/-- Claim C2: when every tool call in the batch has decodable
arguments, every call whose resolution fails — unknown name, or a
callable that raises — yields a tool message describing the error,
correlated by that call's id; the remaining calls are still processed
in order, and (with the model then stopping) invoke returns the final
answer: no such failure escapes as an exception. -/
theorem tool_failures_recoverable
    (dec : Decoder) (model : Model) (tools : List Tool) (st : AgentState)
    (u : String) (ts : List ToolCall) (r0 r1 : ModelResp)
    (hdec : ∀ t ∈ ts, (dec t.arguments).isOk)
    (h0 : ∀ msgs, model st.calls.length msgs = .ok r0)
    (h0tc : r0.tool_calls = some ts) (hne : ts ≠ [])
    (h1 : ∀ msgs, model (st.calls.length + 1) msgs = .ok r1)
    (h1tc : r1.tool_calls = none) :
    (invoke dec model tools st u).2 = .ok (contentOrEmpty r1.content) ∧
    (invoke dec model tools st u).1.memory =
      st.memory ++
        [{ role := "user", content := u, tool_calls := none, tool_call_id := none },
         { role := "assistant", content := contentOrEmpty r0.content,
           tool_calls := some (.ofList ts), tool_call_id := none }] ++
        ts.map (expectedToolMessage dec tools) ++
        [{ role := "assistant", content := contentOrEmpty r1.content,
           tool_calls := none, tool_call_id := none }] := by
  rw [invoke, Memory.add_message_user]
  dsimp only
  rw [h0]
  dsimp only
  rw [Memory.add_message_assistant]
  dsimp only
  rw [h0tc]
  rw [runToolPhase_some_ne_nil dec model tools ts _ hne]
  rw [show maxDepthDefault + 2 = 6 + 1 from rfl, callToolsFuel]
  rw [if_neg (show ¬ 0 > maxDepthDefault by decide)]
  rw [runBatch_ok dec tools ts _ hdec]
  dsimp only
  rw [List.length_append, List.length_singleton]
  rw [h1]
  dsimp only
  rw [Memory.add_message_assistant]
  dsimp only
  rw [h1tc]
  dsimp only
  rw [finishInvoke_ok]
  refine ⟨?_, by simp⟩
  dsimp only
  rw [finalAnswer_concat]

/-- Model for the C2 witness: one batch of two tool calls, then a
final answer. -/
def modelBatchThenStop : Model := fun n _ =>
  if n = 0 then
    .ok { content := some "",
          tool_calls := some [⟨"c1", "power", "a"⟩, ⟨"c2", "boom", "b"⟩] }
  else .ok { content := some "done", tool_calls := none }

/-- Witness for C2: a batch with one unknown tool name and one raising
tool is fully drained into error tool messages and invoke still
answers. -/
theorem tool_failures_recoverable_witness :
    (invoke decAcceptAll modelBatchThenStop [boomTool]
        { memory := [], calls := [], cycles := 0 } "hi").2 = .ok "done" ∧
    (invoke decAcceptAll modelBatchThenStop [boomTool]
        { memory := [], calls := [], cycles := 0 } "hi").1.memory =
      [] ++
        [{ role := "user", content := "hi", tool_calls := none, tool_call_id := none },
         { role := "assistant", content := "",
           tool_calls := some (.ofList [⟨"c1", "power", "a"⟩, ⟨"c2", "boom", "b"⟩]),
           tool_call_id := none }] ++
        [⟨"c1", "power", "a"⟩, ⟨"c2", "boom", "b"⟩].map
          (expectedToolMessage decAcceptAll [boomTool]) ++
        [{ role := "assistant", content := "done",
           tool_calls := none, tool_call_id := none }] :=
  tool_failures_recoverable decAcceptAll modelBatchThenStop [boomTool]
    { memory := [], calls := [], cycles := 0 } "hi"
    [⟨"c1", "power", "a"⟩, ⟨"c2", "boom", "b"⟩]
    { content := some "",
      tool_calls := some [⟨"c1", "power", "a"⟩, ⟨"c2", "boom", "b"⟩] }
    { content := some "done", tool_calls := none }
    (by decide) (fun _ => rfl) rfl (by simp) (fun _ => rfl) rfl

/-! ## Claim C3 -/

/-- A decoder that rejects every argument string. -/
def decRejectAll : Decoder := fun s =>
  .error (.jsonDecodeError ("Expecting value: " ++ s))

/-- Model for the C3 counterexample: proposes two tool calls. -/
def modelTwoCalls : Model := fun _ _ =>
  .ok { content := some "let me compute",
        tool_calls := some [⟨"c1", "power", "oops"⟩, ⟨"c2", "power", "\x7b\x7d"⟩] }

/-- Counterexample to C3: json.loads at agent.py line 169 is outside
the try block, so when the first call's arguments fail to decode the
failure escapes invoke as an exception, and neither the failing call
nor the remaining call gets any tool-result message (the final
transcript carries only the user and assistant messages). -/
theorem decode_failure_escapes_invoke :
    (invoke decRejectAll modelTwoCalls []
        { memory := [], calls := [], cycles := 0 } "q").2 =
      .error (.jsonDecodeError "Expecting value: oops") ∧
    (invoke decRejectAll modelTwoCalls []
        { memory := [], calls := [], cycles := 0 } "q").1.memory =
      [{ role := "user", content := "q", tool_calls := none, tool_call_id := none },
       { role := "assistant", content := "let me compute",
         tool_calls := some (.ofList [⟨"c1", "power", "oops"⟩,
                                      ⟨"c2", "power", "\x7b\x7d"⟩]),
         tool_call_id := none }] := by
  exact ⟨by decide, by decide⟩

/-- Claim C3 as amended: a tool call whose serialized arguments fail to
decode raises out of _call_tools and out of invoke (as the
JSONDecodeError of json.loads): the calls before it in the batch have
already appended their tool messages, but the failing call and all
later calls produce none — the batch is aborted. -/
theorem decode_failure_aborts_invoke
    (dec : Decoder) (model : Model) (tools : List Tool) (st : AgentState)
    (u : String) (ts1 ts2 : List ToolCall) (t : ToolCall) (r0 : ModelResp)
    (e : PyErr)
    (h0 : ∀ msgs, model st.calls.length msgs = .ok r0)
    (h0tc : r0.tool_calls = some (ts1 ++ t :: ts2))
    (hts1 : ∀ x ∈ ts1, (dec x.arguments).isOk)
    (hdec : dec t.arguments = .error e) :
    (invoke dec model tools st u).2 = .error (.jsonDecodeError e.str) ∧
    (invoke dec model tools st u).1.memory =
      st.memory ++
        [{ role := "user", content := u, tool_calls := none, tool_call_id := none },
         { role := "assistant", content := contentOrEmpty r0.content,
           tool_calls := some (.ofList (ts1 ++ t :: ts2)), tool_call_id := none }] ++
        ts1.map (expectedToolMessage dec tools) := by
  rw [invoke, Memory.add_message_user]
  dsimp only
  rw [h0]
  dsimp only
  rw [Memory.add_message_assistant]
  dsimp only
  rw [h0tc]
  rw [runToolPhase_some_ne_nil dec model tools _ _ (by simp)]
  rw [show maxDepthDefault + 2 = 6 + 1 from rfl, callToolsFuel]
  rw [if_neg (show ¬ 0 > maxDepthDefault by decide)]
  rw [runBatch_decode_fail dec tools t e hdec ts1 ts2 _ hts1]
  dsimp only
  rw [finishInvoke_error]
  exact ⟨rfl, by simp⟩

/-- Witness for the amended C3: a batch whose first call decodes and
whose second call does not. -/
theorem decode_failure_aborts_invoke_witness :
    (invoke (fun s => if s = "good" then .ok [] else .error (.jsonDecodeError "bad json"))
        (fun _ _ => .ok { content := some "c",
                          tool_calls := some ([⟨"c1", "boom", "good"⟩] ++
                            ⟨"c2", "boom", "bad"⟩ :: []) })
        [boomTool] { memory := [], calls := [], cycles := 0 } "q").2 =
      .error (.jsonDecodeError "bad json") ∧
    (invoke (fun s => if s = "good" then .ok [] else .error (.jsonDecodeError "bad json"))
        (fun _ _ => .ok { content := some "c",
                          tool_calls := some ([⟨"c1", "boom", "good"⟩] ++
                            ⟨"c2", "boom", "bad"⟩ :: []) })
        [boomTool] { memory := [], calls := [], cycles := 0 } "q").1.memory =
      [] ++
        [{ role := "user", content := "q", tool_calls := none, tool_call_id := none },
         { role := "assistant", content := "c",
           tool_calls := some (.ofList ([⟨"c1", "boom", "good"⟩] ++ ⟨"c2", "boom", "bad"⟩ :: [])),
           tool_call_id := none }] ++
        [⟨"c1", "boom", "good"⟩].map
          (expectedToolMessage
            (fun s => if s = "good" then .ok [] else .error (.jsonDecodeError "bad json"))
            [boomTool]) :=
  decode_failure_aborts_invoke
    (fun s => if s = "good" then .ok [] else .error (.jsonDecodeError "bad json"))
    (fun _ _ => .ok { content := some "c",
                      tool_calls := some ([⟨"c1", "boom", "good"⟩] ++
                        ⟨"c2", "boom", "bad"⟩ :: []) })
    [boomTool] { memory := [], calls := [], cycles := 0 } "q"
    [⟨"c1", "boom", "good"⟩] [] ⟨"c2", "boom", "bad"⟩
    { content := some "c",
      tool_calls := some ([⟨"c1", "boom", "good"⟩] ++ ⟨"c2", "boom", "bad"⟩ :: []) }
    (.jsonDecodeError "bad json")
    (fun _ => rfl) rfl (by decide) rfl

/-! ## Claim C4 -/

/-- Inside _call_tools: if the model succeeds (always proposing tool
calls) at the first n upcoming consultations and fails at the next one,
the failure surfaces as the wrapping modelCallError and the model was
consulted exactly n + 1 more times — the failing call is never
retried. -/
theorem callToolsFuel_model_fail (dec : Decoder) (model : Model)
    (tools : List Tool) (e : String) (hdec : ∀ s, (dec s).isOk) :
    ∀ n fuel depth maxDepth st ts,
      fuel + depth = maxDepth + 2 → depth + n ≤ maxDepth →
      (∀ m, m < n → ∀ msgs, ∃ r l, model (st.calls.length + m) msgs = .ok r ∧
        r.tool_calls = some l ∧ l ≠ []) →
      (∀ msgs, model (st.calls.length + n) msgs = .error e) →
      ∃ st4, callToolsFuel dec model tools fuel ts depth maxDepth st =
          (st4, some (.modelCallError e)) ∧
        st4.calls.length = st.calls.length + n + 1 := by
  intro n
  induction n with
  | zero =>
    intro fuel depth maxDepth st ts hf hd _ hfail
    cases fuel with
    | zero => omega
    | succ fuel =>
      rw [callToolsFuel]
      rw [if_neg (by omega)]
      rw [runBatch_ok dec tools ts st.memory (fun t _ => hdec t.arguments)]
      dsimp only
      have hfl := hfail
        (projectAll (st.memory ++ ts.map (expectedToolMessage dec tools)))
      rw [Nat.add_zero] at hfl
      rw [hfl]
      dsimp only
      exact ⟨_, rfl, by simp⟩
  | succ n ih =>
    intro fuel depth maxDepth st ts hf hd hb hfail
    cases fuel with
    | zero => omega
    | succ fuel =>
      rw [callToolsFuel]
      rw [if_neg (by omega)]
      rw [runBatch_ok dec tools ts st.memory (fun t _ => hdec t.arguments)]
      dsimp only
      obtain ⟨r, l, hm, htc, hlne⟩ := hb 0 (by omega)
        (projectAll (st.memory ++ ts.map (expectedToolMessage dec tools)))
      rw [Nat.add_zero] at hm
      rw [hm]
      dsimp only
      rw [Memory.add_message_assistant]
      dsimp only
      rw [htc]
      cases l with
      | nil => exact absurd rfl hlne
      | cons a as =>
        dsimp only
        have step : ∀ S : AgentState, S.calls.length = st.calls.length + 1 →
            ∃ st4, callToolsFuel dec model tools fuel (a :: as) (depth + 1)
                maxDepth S = (st4, some (.modelCallError e)) ∧
              st4.calls.length = st.calls.length + (n + 1) + 1 := by
          intro S hS
          have hb2 : ∀ m, m < n → ∀ msgs, ∃ r2 l2,
              model (S.calls.length + m) msgs = .ok r2 ∧
              r2.tool_calls = some l2 ∧ l2 ≠ [] := by
            intro m hm msgs
            rw [hS, show st.calls.length + 1 + m = st.calls.length + (m + 1) by omega]
            exact hb (m + 1) (by omega) msgs
          have hfail2 : ∀ msgs, model (S.calls.length + n) msgs = .error e := by
            intro msgs
            rw [hS, show st.calls.length + 1 + n = st.calls.length + (n + 1) by omega]
            exact hfail msgs
          obtain ⟨st4, h4, hc⟩ :=
            ih fuel (depth + 1) maxDepth S (a :: as) (by omega) (by omega) hb2 hfail2
          exact ⟨st4, h4, by omega⟩
        exact step _ (by simp)

/-- Claim C4: a failure of the model-capability call at any point of
the orchestration (the n-th consultation) is not retried: it is wrapped
into a single modelCallError (the RuntimeError of agent.py line 243)
surfaced to the caller of invoke, the model having been consulted
exactly n + 1 times — and no fallback answer is produced. -/
theorem model_failure_not_retried
    (dec : Decoder) (model : Model) (tools : List Tool) (st : AgentState)
    (u : String) (e : String) (n : Nat)
    (hdec : ∀ s, (dec s).isOk)
    (hn : n ≤ maxDepthDefault + 1)
    (hb : ∀ m, m < n → ∀ msgs, ∃ r l, model (st.calls.length + m) msgs = .ok r ∧
      r.tool_calls = some l ∧ l ≠ [])
    (hfail : ∀ msgs, model (st.calls.length + n) msgs = .error e) :
    ∃ st4, invoke dec model tools st u = (st4, .error (.modelCallError e)) ∧
      st4.calls.length = st.calls.length + n + 1 := by
  cases n with
  | zero =>
    rw [invoke, Memory.add_message_user]
    dsimp only
    have hfl := hfail (projectAll (st.memory ++
      [{ role := "user", content := u, tool_calls := none, tool_call_id := none }]))
    rw [Nat.add_zero] at hfl
    rw [hfl]
    dsimp only
    exact ⟨_, rfl, by simp⟩
  | succ n =>
    rw [invoke, Memory.add_message_user]
    dsimp only
    obtain ⟨r, l, hm, htc, hlne⟩ := hb 0 (by omega) (projectAll (st.memory ++
      [{ role := "user", content := u, tool_calls := none, tool_call_id := none }]))
    rw [Nat.add_zero] at hm
    rw [hm]
    dsimp only
    rw [Memory.add_message_assistant]
    dsimp only
    rw [htc]
    cases l with
    | nil => exact absurd rfl hlne
    | cons a as =>
      rw [runToolPhase_some_ne_nil dec model tools _ _ (by simp)]
      have step : ∀ S : AgentState, S.calls.length = st.calls.length + 1 →
          ∃ st4, finishInvoke (callToolsFuel dec model tools (maxDepthDefault + 2)
              (a :: as) 0 maxDepthDefault S) =
            (st4, .error (.modelCallError e)) ∧
            st4.calls.length = st.calls.length + (n + 1) + 1 := by
        intro S hS
        have hb2 : ∀ m, m < n → ∀ msgs, ∃ r2 l2,
            model (S.calls.length + m) msgs = .ok r2 ∧
            r2.tool_calls = some l2 ∧ l2 ≠ [] := by
          intro m hm msgs
          rw [hS, show st.calls.length + 1 + m = st.calls.length + (m + 1) by omega]
          exact hb (m + 1) (by omega) msgs
        have hfail2 : ∀ msgs, model (S.calls.length + n) msgs = .error e := by
          intro msgs
          rw [hS, show st.calls.length + 1 + n = st.calls.length + (n + 1) by omega]
          exact hfail msgs
        obtain ⟨st4, h4, hc⟩ := callToolsFuel_model_fail dec model tools e hdec
          n (maxDepthDefault + 2) 0 maxDepthDefault S (a :: as)
          (by omega) (by simp only [maxDepthDefault] at hn ⊢; omega) hb2 hfail2
        refine ⟨st4, ?_, by omega⟩
        rw [h4, finishInvoke_error]
      exact step _ (by simp)

/-- Model for the C4 witness: one successful tool-calling consultation,
then a backend failure. -/
def modelFailSecond : Model := fun n _ =>
  if n = 0 then .ok { content := some "", tool_calls := some [⟨"c1", "f", "a"⟩] }
  else .error "connection reset"

/-- Witness for C4 with the backend failing at the second
consultation. -/
theorem model_failure_not_retried_witness :
    ∃ st4, invoke decAcceptAll modelFailSecond []
        { memory := [], calls := [], cycles := 0 } "hi" =
        (st4, .error (.modelCallError "connection reset")) ∧
      st4.calls.length =
        (AgentState.mk [] [] 0).calls.length + 1 + 1 :=
  model_failure_not_retried decAcceptAll modelFailSecond []
    { memory := [], calls := [], cycles := 0 } "hi" "connection reset" 1
    (fun _ => rfl) (by decide)
    (fun m hm msgs => by
      have hm0 : m = 0 := by omega
      subst hm0
      exact ⟨{ content := some "", tool_calls := some [⟨"c1", "f", "a"⟩] },
        [⟨"c1", "f", "a"⟩], rfl, rfl, by simp⟩)
    (fun _ => rfl)

/-! ## Claim C10 -/

theorem head?_append_of_head? {α : Type} (l l2 : List α) (a : α)
    (h : l.head? = some a) : (l ++ l2).head? = some a := by
  cases l with
  | nil => simp at h
  | cons x xs => simpa using h

theorem projectAll_head (mem : List Message) (s0 : Message)
    (h : mem.head? = some s0) :
    (projectAll mem).head? = some (projectMsg s0) := by
  cases mem with
  | nil => simp at h
  | cons x xs =>
    simp at h
    subst h
    simp [projectAll]

/-- The seeded system message is the head of the transcript and, in
projected form, the head of the message list handed to every recorded
model call. -/
def sysFirst (s0 : Message) (st : AgentState) : Prop :=
  st.memory.head? = some s0 ∧ ∀ c ∈ st.calls, c.head? = some (projectMsg s0)

theorem callToolsFuel_sysFirst (dec : Decoder) (model : Model)
    (tools : List Tool) (s0 : Message) :
    ∀ fuel ts depth maxDepth st, sysFirst s0 st →
      sysFirst s0 (callToolsFuel dec model tools fuel ts depth maxDepth st).1 := by
  intro fuel
  induction fuel with
  | zero => intro ts depth maxDepth st h; simpa [callToolsFuel] using h
  | succ fuel ih =>
    intro ts depth maxDepth st h
    obtain ⟨hmem, hcalls⟩ := h
    rw [callToolsFuel]
    by_cases hgt : depth > maxDepth
    · rw [if_pos hgt]; exact ⟨hmem, hcalls⟩
    · rw [if_neg hgt]
      obtain ⟨extraB, hB, _⟩ := runBatch_extends dec tools ts st.memory
      cases hrb : runBatch dec tools ts st.memory with
      | mk mem1 err =>
        rw [hrb] at hB
        dsimp only at hB
        subst hB
        have hmem1 : (st.memory ++ extraB).head? = some s0 :=
          head?_append_of_head? _ _ _ hmem
        cases err with
        | some e => exact ⟨hmem1, hcalls⟩
        | none =>
          dsimp only
          cases hm : model st.calls.length (projectAll (st.memory ++ extraB)) with
          | error e =>
            dsimp only
            refine ⟨hmem1, ?_⟩
            intro c hc
            rcases List.mem_append.mp hc with hc | hc
            · exact hcalls c hc
            · simp at hc
              subst hc
              exact projectAll_head _ _ hmem1
          | ok r =>
            dsimp only
            rw [Memory.add_message_assistant]
            dsimp only
            have hmem2 : ((st.memory ++ extraB) ++
                [({ role := "assistant", content := contentOrEmpty r.content,
                    tool_calls := none, tool_call_id := none } : Message)]).head? = some s0 :=
              head?_append_of_head? _ _ _ hmem1
            have hcalls2 : ∀ c ∈ st.calls ++ [projectAll (st.memory ++ extraB)],
                c.head? = some (projectMsg s0) := by
              intro c hc
              rcases List.mem_append.mp hc with hc | hc
              · exact hcalls c hc
              · simp at hc
                subst hc
                exact projectAll_head _ _ hmem1
            cases htc : r.tool_calls with
            | none => exact ⟨hmem2, hcalls2⟩
            | some l =>
              cases l with
              | nil => exact ⟨hmem2, hcalls2⟩
              | cons a as =>
                refine ih (a :: as) (depth + 1) maxDepth _ ?_
                exact ⟨hmem2, hcalls2⟩

theorem runToolPhase_sysFirst (dec : Decoder) (model : Model)
    (tools : List Tool) (tcs : Option (List ToolCall)) (st : AgentState)
    (s0 : Message) (h : sysFirst s0 st) :
    sysFirst s0 (runToolPhase dec model tools tcs st).1 := by
  cases tcs with
  | none => exact h
  | some l =>
    cases l with
    | nil => exact h
    | cons a as => exact callToolsFuel_sysFirst dec model tools s0 _ _ _ _ _ h

theorem invoke_sysFirst (dec : Decoder) (model : Model) (tools : List Tool)
    (st : AgentState) (u : String) (s0 : Message) (h : sysFirst s0 st) :
    sysFirst s0 (invoke dec model tools st u).1 := by
  obtain ⟨hmem, hcalls⟩ := h
  rw [invoke, Memory.add_message_user]
  dsimp only
  have hmem1 : (st.memory ++ [({ role := "user", content := u, tool_calls := none, tool_call_id := none } : Message)]).head? = some s0 :=
    head?_append_of_head? _ _ _ hmem
  have hcalls1 : ∀ c ∈ st.calls ++ [projectAll (st.memory ++ [{ role := "user", content := u, tool_calls := none, tool_call_id := none }])],
      c.head? = some (projectMsg s0) := by
    intro c hc
    rcases List.mem_append.mp hc with hc | hc
    · exact hcalls c hc
    · simp at hc
      subst hc
      exact projectAll_head _ _ hmem1
  cases hm : model st.calls.length (projectAll (st.memory ++ [{ role := "user", content := u, tool_calls := none, tool_call_id := none }])) with
  | error e => exact ⟨hmem1, hcalls1⟩
  | ok r =>
    dsimp only
    rw [Memory.add_message_assistant]
    dsimp only
    rw [finishInvoke_fst]
    refine runToolPhase_sysFirst dec model tools r.tool_calls _ s0 ?_
    exact ⟨head?_append_of_head? _ _ _ hmem1, hcalls1⟩

/-- Claim C10: immediately after Agent construction the transcript
holds exactly one message, a system message whose content is derived
from the agent's role and instructions; projection leaves that message
unchanged; and invoke only appends, so the system message stays the
head of the transcript and (projected) the head of the message list
passed to every model call, across any sequence of invoke calls. -/
theorem system_message_seeded_and_first :
    (∀ role instructions, initAgent role instructions =
        .ok { memory := [{ role := "system",
                           content := system_content role instructions,
                           tool_calls := none, tool_call_id := none }],
              calls := [], cycles := 0 }) ∧
    (∀ role instructions,
      projectMsg { role := "system", content := system_content role instructions,
                   tool_calls := none, tool_call_id := none } =
        { role := "system", content := system_content role instructions,
          tool_calls := none, tool_call_id := none }) ∧
    (∀ s0 dec model tools st u, sysFirst s0 st →
        sysFirst s0 (invoke dec model tools st u).1) := by
  refine ⟨?_, ?_, ?_⟩
  · intro role instructions
    rw [initAgent, Memory.add_message_system]
    simp
  · intro role instructions
    rfl
  · exact fun s0 dec model tools st u h => invoke_sysFirst dec model tools st u s0 h

/-- Witness for C10 at a concrete constructed agent driven through one
invoke call that exercises the tool loop to the recursion limit. -/
theorem system_message_seeded_and_first_witness :
    sysFirst { role := "system",
               content := system_content "Personal Assistant" "help",
               tool_calls := none, tool_call_id := none }
      (invoke decAcceptAll modelAlwaysCalls []
        { memory := [{ role := "system",
                       content := system_content "Personal Assistant" "help",
                       tool_calls := none, tool_call_id := none }],
          calls := [], cycles := 0 } "hi").1 :=
  system_message_seeded_and_first.2.2
    { role := "system", content := system_content "Personal Assistant" "help",
      tool_calls := none, tool_call_id := none }
    decAcceptAll modelAlwaysCalls []
    { memory := [{ role := "system",
                   content := system_content "Personal Assistant" "help",
                   tool_calls := none, tool_call_id := none }],
      calls := [], cycles := 0 } "hi"
    ⟨rfl, by simp⟩

end AgentProto
